import Mathlib

/-!
# QRBrandr — verification of the logo-compositing and batch-export core

Shallow embedding of the compositing / export logic of the QRBrandr
repository (`src/App.tsx` and the batch generator component).  Pixel and
millimetre quantities are modelled as exact rationals (`ℚ`), JavaScript
strings as `List Char`, and the stateful canvas / SVG / PDF drawing calls as
explicit lists of drawing commands.
-/

/-- JavaScript strings are modelled as lists of characters. -/
abbrev Str := List Char

/-! ## Logo placement geometry

`App.tsx`, `generateQRCode` (canvas path, lines 113-158) and
`downloadQRCode` (SVG path, lines 204-233). -/

/-- The derived logo placement values: `logoSizePixels`, the drawing origin
`x`/`y` and the background `padding`. -/
structure LogoGeom where
  lsp : ℚ
  x : ℚ
  y : ℚ
  padding : ℚ
deriving DecidableEq

/-- Canvas-path geometry, from `generateQRCode`:
`logoSizePixels = (options.size * options.logoSize) / 100`,
`x = y = (options.size - logoSizePixels) / 2`,
`padding = logoSizePixels * 0.1`. -/
def canvasLogoGeom (size logoSize : ℚ) : LogoGeom :=
  let logoSizePixels := size * logoSize / 100
  { lsp := logoSizePixels
    x := (size - logoSizePixels) / 2
    y := (size - logoSizePixels) / 2
    padding := logoSizePixels * 0.1 }

/-- SVG-path geometry, from `downloadQRCode`:
`logoSize = (options.size * logoSizePercent) / 100`,
`x = y = (options.size - logoSize) / 2`, `padding = logoSize * 0.1`. -/
def svgLogoGeom (size logoSizePercent : ℚ) : LogoGeom :=
  let logoSize := size * logoSizePercent / 100
  { lsp := logoSize
    x := (size - logoSize) / 2
    y := (size - logoSize) / 2
    padding := logoSize * 0.1 }

/-- Shape choice, `options.logoShape`. -/
inductive LogoShape
  | square
  | rounded
deriving DecidableEq

/-- One 2d-context drawing call issued by the canvas compositing path. -/
inductive CanvasOp
  | fillCircle (cx cy r : ℚ)
  | fillRect (x y w h : ℚ)
  | saveCtx
  | clipCircle (cx cy r : ℚ)
  | drawImage (x y w h : ℚ)
  | restoreCtx
deriving DecidableEq

/-- The drawing calls of the logo-compositing block of `generateQRCode`
(lines 120-150), in issue order. -/
def canvasLogoOps (shape : LogoShape) (size logoSize : ℚ) : List CanvasOp :=
  let g := canvasLogoGeom size logoSize
  match shape with
  | .rounded =>
    let radius := (g.lsp + g.padding * 2) / 2
    let centerX := g.x - g.padding + radius
    let centerY := g.y - g.padding + radius
    [ .fillCircle centerX centerY radius
    , .saveCtx
    , .clipCircle (g.x + g.lsp / 2) (g.y + g.lsp / 2) (g.lsp / 2)
    , .drawImage g.x g.y g.lsp g.lsp
    , .restoreCtx ]
  | .square =>
    [ .fillRect (g.x - g.padding) (g.y - g.padding) (g.lsp + g.padding * 2) (g.lsp + g.padding * 2)
    , .drawImage g.x g.y g.lsp g.lsp ]

/-- One SVG element emitted by the SVG compositing path; an `imageElem`
optionally carries the circular clip-path `(cx, cy, r)` it references. -/
inductive SvgElem
  | circleElem (cx cy r : ℚ)
  | rectElem (x y w h : ℚ)
  | imageElem (x y w h : ℚ) (clip : Option (ℚ × ℚ × ℚ))
deriving DecidableEq

/-- The two elements inserted into the SVG document by `downloadQRCode`
(lines 224-230): `backgroundRect` followed by `logoElement`. -/
def svgLogoElems (shape : LogoShape) (size logoSizePercent : ℚ) : List SvgElem :=
  let g := svgLogoGeom size logoSizePercent
  let backgroundRect : SvgElem :=
    match shape with
    | .rounded => .circleElem (g.x + g.lsp / 2) (g.y + g.lsp / 2) ((g.lsp + g.padding * 2) / 2)
    | .square => .rectElem (g.x - g.padding) (g.y - g.padding)
        (g.lsp + g.padding * 2) (g.lsp + g.padding * 2)
  let logoElement : SvgElem :=
    match shape with
    | .rounded => .imageElem g.x g.y g.lsp g.lsp
        (some (g.x + g.lsp / 2, g.y + g.lsp / 2, g.lsp / 2))
    | .square => .imageElem g.x g.y g.lsp g.lsp none
  [backgroundRect, logoElement]

/-! ## Regions covered by the drawn shapes -/

/-- Closed disk: the region filled by `ctx.arc` + `fill`, or an SVG circle. -/
def disk (cx cy r : ℚ) : Set (ℚ × ℚ) :=
  {q : ℚ × ℚ | (q.1 - cx) ^ 2 + (q.2 - cy) ^ 2 ≤ r ^ 2}

/-- Axis-aligned rectangle with top-left corner `(x, y)`. -/
def rectRegion (x y w h : ℚ) : Set (ℚ × ℚ) :=
  {q : ℚ × ℚ | x ≤ q.1 ∧ q.1 ≤ x + w ∧ y ≤ q.2 ∧ q.2 ≤ y + h}

/-- Region covered by the background shape drawn by the canvas path. -/
def canvasBgRegion (shape : LogoShape) (size logoSize : ℚ) : Set (ℚ × ℚ) :=
  let g := canvasLogoGeom size logoSize
  match shape with
  | .rounded =>
    let radius := (g.lsp + g.padding * 2) / 2
    disk (g.x - g.padding + radius) (g.y - g.padding + radius) radius
  | .square =>
    rectRegion (g.x - g.padding) (g.y - g.padding) (g.lsp + g.padding * 2) (g.lsp + g.padding * 2)

/-- Region covered by the background element emitted by the SVG path. -/
def svgBgRegion (shape : LogoShape) (size logoSizePercent : ℚ) : Set (ℚ × ℚ) :=
  let g := svgLogoGeom size logoSizePercent
  match shape with
  | .rounded =>
    disk (g.x + g.lsp / 2) (g.y + g.lsp / 2) ((g.lsp + g.padding * 2) / 2)
  | .square =>
    rectRegion (g.x - g.padding) (g.y - g.padding) (g.lsp + g.padding * 2) (g.lsp + g.padding * 2)

/-- Region actually covered by the drawn logo image: the image rectangle,
intersected with the circular clip when the shape is rounded. -/
def logoDrawnRegion (shape : LogoShape) (size logoSize : ℚ) : Set (ℚ × ℚ) :=
  let g := canvasLogoGeom size logoSize
  match shape with
  | .rounded =>
    rectRegion g.x g.y g.lsp g.lsp ∩ disk (g.x + g.lsp / 2) (g.y + g.lsp / 2) (g.lsp / 2)
  | .square =>
    rectRegion g.x g.y g.lsp g.lsp

/-! ## Single-QR generation (`generateQRCode`, lines 72-164) -/

/-- Unicode code points treated as whitespace by JavaScript `String.trim`. -/
def isJSWs (c : Char) : Bool :=
  c.toNat ∈ [9, 10, 11, 12, 13, 32, 160, 0x1680, 0x2000, 0x2001, 0x2002, 0x2003,
    0x2004, 0x2005, 0x2006, 0x2007, 0x2008, 0x2009, 0x200A, 0x2028, 0x2029,
    0x202F, 0x205F, 0x3000, 0xFEFF]

/-- JavaScript `String.prototype.trim`: strip whitespace from both ends. -/
def jsTrim (s : Str) : Str :=
  ((s.dropWhile isJSWs).reverse.dropWhile isJSWs).reverse

/-- The observable result of one `generateQRCode` run: the canvas size and
the logo-compositing drawing calls (empty when no logo is present). -/
structure QRArtifact where
  size : ℚ
  logoOps : List CanvasOp
deriving DecidableEq

/-- Single-QR generation, `generateQRCode`: skips silently (`if (!options.text.trim()) return;`)
on a blank payload, otherwise draws the QR code and, when a logo file is
present, composites the logo with `canvasLogoOps`. -/
def generateQRCode (text : Str) (size logoSize : ℚ) (hasLogo : Bool)
    (shape : LogoShape) : Option QRArtifact :=
  if jsTrim text = [] then none
  else some { size := size
              logoOps := if hasLogo then canvasLogoOps shape size logoSize else [] }

/-- Modelled from the spec: clamping a `logoSize` percentage into the
documented range 10-30 (`sizeRatio ∈ [0.10, 0.30]`).  The source itself has
no such clamping; this definition exists only to compare the spec's required
behaviour with the code's. -/
def specClampLogoSize (p : ℚ) : ℚ := max 10 (min 30 p)

/-! ## C1 and C2 -/

/-- C1: for every QR size `s` and logo size percentage `p`, the compositor
computes `logoSizePixels = s * p / 100` and places the logo at
`x = y = (s - logoSizePixels) / 2` exactly on both axes, and the canvas
path and the SVG path compute the same placement geometry. -/
theorem logo_centering_and_path_parity (size logoSize : ℚ) :
    (canvasLogoGeom size logoSize).lsp = size * logoSize / 100 ∧
    (canvasLogoGeom size logoSize).x = (size - size * logoSize / 100) / 2 ∧
    (canvasLogoGeom size logoSize).y = (size - size * logoSize / 100) / 2 ∧
    (canvasLogoGeom size logoSize).x = (canvasLogoGeom size logoSize).y ∧
    svgLogoGeom size logoSize = canvasLogoGeom size logoSize :=
  ⟨rfl, rfl, rfl, rfl, rfl⟩

/-- C2 counterexample: at `size = 300`, `logoSize = 50` (sizeRatio `0.50`,
far outside `[0.10, 0.30]`), generation with a logo still produces an
artifact (no rejection), and the geometry it draws is computed from the
out-of-range value as given (`logoSizePixels = 150`), not from the clamped
value (which would give `90`). -/
theorem sizeRatio_never_clamped_cex :
    generateQRCode ['a'] 300 50 true .square =
      some { size := 300, logoOps := canvasLogoOps .square 300 50 } ∧
    canvasLogoGeom 300 50 = { lsp := 150, x := 75, y := 75, padding := 15 } ∧
    specClampLogoSize 50 = 30 ∧
    canvasLogoGeom 300 (specClampLogoSize 50) ≠ canvasLogoGeom 300 50 := by
  have h30 : specClampLogoSize 50 = 30 := by
    norm_num [specClampLogoSize]
  refine ⟨rfl, ?_, h30, ?_⟩
  · simp only [canvasLogoGeom, LogoGeom.mk.injEq]
    norm_num
  · rw [h30]
    intro h
    have hl := congrArg LogoGeom.lsp h
    simp only [canvasLogoGeom] at hl
    norm_num at hl

/-- C2 (amended): the compositing core applies no clamping and no rejection:
for any `logoSize` outside the 10-30 range, generation with a logo and a
non-blank payload computes the placement from the value exactly as given;
the range is enforced only by the UI slider. -/
theorem sizeRatio_used_as_given (text : Str) (size logoSize : ℚ) (shape : LogoShape)
    (_hout : logoSize < 10 ∨ 30 < logoSize) (htext : jsTrim text ≠ []) :
    generateQRCode text size logoSize true shape =
      some { size := size, logoOps := canvasLogoOps shape size logoSize } := by
  simp [generateQRCode, htext]

/-- C2 witness: the amended theorem applied at a concrete out-of-range input. -/
theorem sizeRatio_used_as_given_witness :
    ((30 : ℚ) < 50 ∧ jsTrim ['a'] ≠ []) ∧
    generateQRCode ['a'] 300 50 true .rounded =
      some { size := 300, logoOps := canvasLogoOps .rounded 300 50 } :=
  ⟨⟨by decide, by decide⟩,
    sizeRatio_used_as_given ['a'] 300 50 .rounded (Or.inr (by decide)) (by decide)⟩

/-! ## C4: the background shape is drawn beneath and strictly contains the logo -/

/-- A concentric disk of smaller radius is strictly contained in the larger. -/
lemma disk_ssubset_disk (cx cy r R : ℚ) (h0 : 0 ≤ r) (hrR : r < R) :
    disk cx cy r ⊂ disk cx cy R := by
  rw [Set.ssubset_def]
  constructor
  · rintro ⟨a, b⟩ hq
    simp only [disk, Set.mem_setOf_eq] at hq ⊢
    nlinarith [sq_nonneg (R - r), sq_nonneg (R + r)]
  · intro hsub
    have hmem : ((cx + R, cy) : ℚ × ℚ) ∈ disk cx cy R := by
      simp only [disk, Set.mem_setOf_eq]
      nlinarith
    have hin := hsub hmem
    simp only [disk, Set.mem_setOf_eq] at hin
    nlinarith

/-- A square grown by a positive padding on every side strictly contains the
original square. -/
lemma rect_ssubset_rect (x y w pad : ℚ) (hw : 0 ≤ w) (hp : 0 < pad) :
    rectRegion x y w w ⊂ rectRegion (x - pad) (y - pad) (w + pad * 2) (w + pad * 2) := by
  rw [Set.ssubset_def]
  constructor
  · rintro ⟨a, b⟩ hq
    simp only [rectRegion, Set.mem_setOf_eq] at hq ⊢
    obtain ⟨h1, h2, h3, h4⟩ := hq
    exact ⟨by linarith, by linarith, by linarith, by linarith⟩
  · intro hsub
    have hmem : ((x - pad, y - pad) : ℚ × ℚ) ∈
        rectRegion (x - pad) (y - pad) (w + pad * 2) (w + pad * 2) := by
      simp only [rectRegion, Set.mem_setOf_eq]
      exact ⟨le_refl _, by linarith, le_refl _, by linarith⟩
    have hin := hsub hmem
    simp only [rectRegion, Set.mem_setOf_eq] at hin
    linarith [hin.1]

/-- Center normalisation: the rounded background circle drawn by the canvas
path is centred on the logo centre. -/
lemma bg_center (X L : ℚ) : X - L * 0.1 + (L + L * 0.1 * 2) / 2 = X + L / 2 := by
  have h : (0.1 : ℚ) = 1 / 10 := by norm_num
  rw [h]; ring

/-- Radius normalisation: with `padding = 0.1 * L` the background radius is
`0.6 * L`. -/
lemma bg_radius (L : ℚ) : (L + L * 0.1 * 2) / 2 = L * (3 / 5) := by
  have h : (0.1 : ℚ) = 1 / 10 := by norm_num
  rw [h]; ring

/-- The canvas rounded background region, in centre/radius normal form. -/
lemma canvasBg_rounded_eq (s p : ℚ) :
    canvasBgRegion .rounded s p =
      disk ((canvasLogoGeom s p).x + (canvasLogoGeom s p).lsp / 2)
        ((canvasLogoGeom s p).y + (canvasLogoGeom s p).lsp / 2)
        ((canvasLogoGeom s p).lsp * (3 / 5)) := by
  have hpad : (canvasLogoGeom s p).padding = (canvasLogoGeom s p).lsp * 0.1 := rfl
  have h0 : canvasBgRegion .rounded s p =
      disk ((canvasLogoGeom s p).x - (canvasLogoGeom s p).padding +
          ((canvasLogoGeom s p).lsp + (canvasLogoGeom s p).padding * 2) / 2)
        ((canvasLogoGeom s p).y - (canvasLogoGeom s p).padding +
          ((canvasLogoGeom s p).lsp + (canvasLogoGeom s p).padding * 2) / 2)
        (((canvasLogoGeom s p).lsp + (canvasLogoGeom s p).padding * 2) / 2) := rfl
  rw [h0, hpad, bg_center, bg_center, bg_radius]

/-- The SVG rounded background region, in the same normal form. -/
lemma svgBg_rounded_eq (s p : ℚ) :
    svgBgRegion .rounded s p =
      disk ((canvasLogoGeom s p).x + (canvasLogoGeom s p).lsp / 2)
        ((canvasLogoGeom s p).y + (canvasLogoGeom s p).lsp / 2)
        ((canvasLogoGeom s p).lsp * (3 / 5)) := by
  have hpad : (canvasLogoGeom s p).padding = (canvasLogoGeom s p).lsp * 0.1 := rfl
  have h0 : svgBgRegion .rounded s p =
      disk ((canvasLogoGeom s p).x + (canvasLogoGeom s p).lsp / 2)
        ((canvasLogoGeom s p).y + (canvasLogoGeom s p).lsp / 2)
        (((canvasLogoGeom s p).lsp + (canvasLogoGeom s p).padding * 2) / 2) := rfl
  rw [h0, hpad, bg_radius]

/-- Recognises the background fill calls among the canvas drawing commands. -/
def isBgFill : CanvasOp → Bool
  | .fillCircle _ _ _ => true
  | .fillRect _ _ _ _ => true
  | _ => false

/-- Recognises the logo image draw call. -/
def isImgDraw : CanvasOp → Bool
  | .drawImage _ _ _ _ => true
  | _ => false

/-- Recognises the background element among the inserted SVG elements. -/
def isSvgBg : SvgElem → Bool
  | .circleElem _ _ _ => true
  | .rectElem _ _ _ _ => true
  | _ => false

/-- Recognises the logo image element among the inserted SVG elements. -/
def isSvgImage : SvgElem → Bool
  | .imageElem _ _ _ _ _ => true
  | _ => false

/-- C4: whenever `logoSizePixels > 0`, the background shape (circle of
radius `(logoSizePixels + 2*padding)/2` when rounded, square of side
`logoSizePixels + 2*padding` when square) strictly contains the logo's
drawn region, the raster and vector paths draw the same background region,
and in both paths the background is drawn before the logo image. -/
theorem background_beneath_and_contains (s p : ℚ)
    (h : 0 < (canvasLogoGeom s p).lsp) :
    (∀ shape, logoDrawnRegion shape s p ⊂ canvasBgRegion shape s p) ∧
    (∀ shape, svgBgRegion shape s p = canvasBgRegion shape s p) ∧
    ((canvasLogoOps .rounded s p).findIdx isBgFill = 0 ∧
      (canvasLogoOps .rounded s p).findIdx isImgDraw = 3) ∧
    ((canvasLogoOps .square s p).findIdx isBgFill = 0 ∧
      (canvasLogoOps .square s p).findIdx isImgDraw = 1) ∧
    (∀ shape, (svgLogoElems shape s p).map isSvgBg = [true, false] ∧
      (svgLogoElems shape s p).map isSvgImage = [false, true]) := by
  have hpadpos : 0 < (canvasLogoGeom s p).padding := by
    have hpad : (canvasLogoGeom s p).padding = (canvasLogoGeom s p).lsp * 0.1 := rfl
    rw [hpad]
    nlinarith
  refine ⟨?_, ?_, ⟨rfl, rfl⟩, ⟨rfl, rfl⟩, ?_⟩
  · intro shape
    cases shape with
    | rounded =>
      rw [canvasBg_rounded_eq]
      have hsub : logoDrawnRegion .rounded s p ⊆
          disk ((canvasLogoGeom s p).x + (canvasLogoGeom s p).lsp / 2)
            ((canvasLogoGeom s p).y + (canvasLogoGeom s p).lsp / 2)
            ((canvasLogoGeom s p).lsp / 2) := Set.inter_subset_right
      exact ssubset_of_subset_of_ssubset hsub
        (disk_ssubset_disk _ _ _ _ (by linarith) (by linarith))
    | square =>
      exact rect_ssubset_rect (canvasLogoGeom s p).x (canvasLogoGeom s p).y
        (canvasLogoGeom s p).lsp (canvasLogoGeom s p).padding (le_of_lt h) hpadpos
  · intro shape
    cases shape with
    | rounded => rw [svgBg_rounded_eq, canvasBg_rounded_eq]
    | square => rfl
  · intro shape
    cases shape with
    | rounded => exact ⟨rfl, rfl⟩
    | square => exact ⟨rfl, rfl⟩

/-- C4 witness: the containment theorem applied at `size = 300`,
`logoSize = 20` (`logoSizePixels = 60`). -/
theorem background_beneath_and_contains_witness :
    0 < (canvasLogoGeom 300 20).lsp ∧
    logoDrawnRegion .rounded 300 20 ⊂ canvasBgRegion .rounded 300 20 ∧
    logoDrawnRegion .square 300 20 ⊂ canvasBgRegion .square 300 20 :=
  ⟨by norm_num [canvasLogoGeom],
    (background_beneath_and_contains 300 20 (by norm_num [canvasLogoGeom])).1 .rounded,
    (background_beneath_and_contains 300 20 (by norm_num [canvasLogoGeom])).1 .square⟩

/-! ## C3: grid pagination (`downloadBatch`, case 'pdf-grid', lines 166-220) -/

/-- Grid columns, `const cols = 2`. -/
def gridCols : Nat := 2

/-- Grid rows, `const rows = 3`. -/
def gridRows : Nat := 3

/-- Page of item `i`: `pageIndex = Math.floor(i / (cols * rows))`. -/
def gridPageIndex (i : Nat) : Nat := i / (gridCols * gridRows)

/-- Cell of item `i`: `cellIndex = i % (cols * rows)`. -/
def gridCellIndex (i : Nat) : Nat := i % (gridCols * gridRows)

/-- Column of item `i`: `col = cellIndex % cols`. -/
def gridCol (i : Nat) : Nat := gridCellIndex i % gridCols

/-- Row of item `i`: `row = Math.floor(cellIndex / cols)`. -/
def gridRow (i : Nat) : Nat := gridCellIndex i / gridCols

/-- The loop state of the grid export: `currentPage` and the number of pages
of the document built so far (jsPDF starts with one page). -/
structure GridSt where
  currentPage : Nat
  pages : Nat
deriving DecidableEq

/-- One iteration of the grid loop: `if (pageIndex > currentPage) {
pdfGrid.addPage(); currentPage = pageIndex; }`. -/
def gridStep (st : GridSt) (i : Nat) : GridSt :=
  if st.currentPage < gridPageIndex i then
    { currentPage := gridPageIndex i, pages := st.pages + 1 }
  else st

/-- State after processing items `0, …, n-1` starting from
`currentPage = 0` with the single initial page. -/
def gridRun (n : Nat) : GridSt :=
  (List.range n).foldl gridStep { currentPage := 0, pages := 1 }

/-- Whether `addPage` fires during iteration `i`: iff the page index computed for
item `i` exceeds the `currentPage` left by the previous iterations. -/
def gridAddPageAt (i : Nat) : Bool :=
  decide ((gridRun i).currentPage < gridPageIndex i)

/-- How many of the first `n` items land on page `pg`. -/
def gridItemsOnPage (n pg : Nat) : Nat :=
  ((List.range n).filter (fun i => gridPageIndex i == pg)).length

lemma gridRun_succ (n : Nat) : gridRun (n + 1) = gridStep (gridRun n) n := by
  simp [gridRun, List.range_succ]

lemma gridRun_currentPage (n : Nat) : (gridRun (n + 1)).currentPage = gridPageIndex n := by
  induction n with
  | zero => rfl
  | succ n ih =>
    rw [gridRun_succ, gridStep]
    by_cases hlt : (gridRun (n + 1)).currentPage < gridPageIndex (n + 1)
    · simp [hlt]
    · simp only [hlt, if_false]
      rw [ih] at hlt ⊢
      have hmono : gridPageIndex n ≤ gridPageIndex (n + 1) :=
        Nat.div_le_div_right (Nat.le_succ n)
      omega

/-- C3: with `cols = 2`, `rows = 3`, item `i` lands at `page = i / 6`,
`col = i % 2`, `row = (i % 6) / 2`; a page is appended during iteration `i`
exactly when `i` is a positive multiple of 6; and 13 valid items produce
exactly 3 pages with exactly one item on the third page. -/
theorem grid_pagination_law :
    (∀ i, gridPageIndex i = i / 6 ∧ gridCol i = i % 2 ∧ gridRow i = i % 6 / 2) ∧
    (∀ i, gridAddPageAt i = true ↔ 0 < i ∧ i % 6 = 0) ∧
    (gridRun 13).pages = 3 ∧ gridItemsOnPage 13 2 = 1 := by
  refine ⟨?_, ?_, by decide, by decide⟩
  · intro i
    refine ⟨rfl, ?_, rfl⟩
    show i % (gridCols * gridRows) % gridCols = i % 2
    show i % 6 % 2 = i % 2
    exact Nat.mod_mod_of_dvd i (by norm_num)
  · intro i
    cases i with
    | zero => decide
    | succ n =>
      rw [gridAddPageAt, gridRun_currentPage]
      show decide (n / 6 < (n + 1) / 6) = true ↔ 0 < n + 1 ∧ (n + 1) % 6 = 0
      rw [decide_eq_true_iff]
      omega

/-! ## C5: SVG logo insertion (`downloadQRCode`, lines 232-233) -/

/-- JavaScript `String.prototype.replace` with a string pattern: replace the
first (leftmost) occurrence of `pat` by `rep`; the string is returned
unchanged when `pat` does not occur. -/
def jsReplaceFirst (pat rep : List Char) : List Char → List Char
  | [] => if pat.isPrefixOf ([] : List Char) then rep else []
  | c :: cs =>
    if pat.isPrefixOf (c :: cs) then rep ++ (c :: cs).drop pat.length
    else c :: jsReplaceFirst pat rep cs

/-- The closing tag targeted by `svgContent.replace('</svg>', ...)`. -/
def closeTag : List Char := "</svg>".toList

lemma jsReplaceFirst_found (pat rep s : List Char) (h : pat.isPrefixOf s = true) :
    jsReplaceFirst pat rep s = rep ++ s.drop pat.length := by
  cases s with
  | nil =>
    cases pat with
    | nil => simp [jsReplaceFirst]
    | cons p ps => simp [List.isPrefixOf] at h
  | cons c cs => simp [jsReplaceFirst, h]

lemma jsReplaceFirst_skip (pat rep : List Char) (c : Char) (cs : List Char)
    (h : pat.isPrefixOf (c :: cs) = false) :
    jsReplaceFirst pat rep (c :: cs) = c :: jsReplaceFirst pat rep cs := by
  simp [jsReplaceFirst, h]

/-- C5: for a base SVG document `base ++ "</svg>"` whose only occurrence of
`"</svg>"` is the final closing tag, the replacement performed by the SVG
export inserts the background element and the logo image element immediately
before the closing tag and leaves every character of the prior content
unchanged. -/
theorem svg_insertion_before_close (base bgElem logoElem : List Char)
    (honly : ∀ i, i < base.length →
      closeTag.isPrefixOf ((base ++ closeTag).drop i) = false) :
    jsReplaceFirst closeTag (bgElem ++ logoElem ++ closeTag) (base ++ closeTag) =
      base ++ bgElem ++ logoElem ++ closeTag := by
  induction base with
  | nil =>
    rw [List.nil_append, jsReplaceFirst_found closeTag _ closeTag (by decide)]
    simp
  | cons c cs ih =>
    have h0 : closeTag.isPrefixOf (c :: (cs ++ closeTag)) = false := by
      have := honly 0 (by simp)
      simpa using this
    rw [List.cons_append, jsReplaceFirst_skip closeTag _ c (cs ++ closeTag) h0,
      ih (fun i hi => by
        have := honly (i + 1) (by simp; omega)
        simpa using this)]
    simp

/-- C5 witness: the insertion theorem applied to a concrete base document
(a one-rect SVG) and concrete inserted elements. -/
theorem svg_insertion_before_close_witness :
    (∀ i, i < ("<svg><rect/>".toList).length →
      closeTag.isPrefixOf (("<svg><rect/>".toList ++ closeTag).drop i) = false) ∧
    jsReplaceFirst closeTag
        ("<circle/>".toList ++ "<image/>".toList ++ closeTag)
        ("<svg><rect/>".toList ++ closeTag) =
      "<svg><rect/>".toList ++ "<circle/>".toList ++ "<image/>".toList ++ closeTag :=
  ⟨by decide,
    svg_insertion_before_close "<svg><rect/>".toList "<circle/>".toList "<image/>".toList
      (by decide)⟩

/-! ## Batch items (BatchGenerator component) -/

/-- Decimal string of a natural number, as produced by JavaScript
`Number.prototype.toString()` on the integer timestamps used for ids. -/
def idOf (n : Nat) : Str := (Nat.repr n).toList

/-- One row of the batch collection (`interface BatchItem`). -/
structure BatchItem where
  id : Str
  text : Str
  filename : Str
deriving DecidableEq

/-- The initial `batchItems` state (lines 25-29). -/
def initialBatchItems : List BatchItem :=
  [ { id := "1".toList, text := "https://example.com".toList
      filename := "example-website".toList }
  , { id := "2".toList, text := "mailto:contact@company.com".toList
      filename := "contact-email".toList }
  , { id := "3".toList, text := "tel:+1234567890".toList
      filename := "phone-number".toList } ]

/-- Operation `addBatchItem` (lines 38-45): appends a fresh item whose id is
`Date.now().toString()`; `now` is the millisecond timestamp. -/
def addBatchItem (now : Nat) (batchItems : List BatchItem) : List BatchItem :=
  batchItems ++
    [ { id := idOf now, text := []
        filename := "qr-code-".toList ++ idOf (batchItems.length + 1) } ]

/-- The field being written by `updateBatchItem` (`field: keyof BatchItem`). -/
inductive BatchField
  | id
  | text
  | filename
deriving DecidableEq

/-- Operation `updateBatchItem` (lines 47-53): rewrite one field of the item whose id
matches. -/
def updateBatchItem (batchItems : List BatchItem) (tid : Str) (f : BatchField)
    (v : Str) : List BatchItem :=
  batchItems.map fun item =>
    if item.id = tid then
      match f with
      | .id => { item with id := v }
      | .text => { item with text := v }
      | .filename => { item with filename := v }
    else item

/-- Operation `removeBatchItem` (lines 55-57). -/
def removeBatchItem (batchItems : List BatchItem) (tid : Str) : List BatchItem :=
  batchItems.filter fun item => decide (item.id ≠ tid)

/-- The ids of a batch collection. -/
def batchIds (items : List BatchItem) : List Str := items.map (·.id)

/-- Filter `batchItems.filter(item => item.text.trim())` (line 113): the items an
export pass actually processes. -/
def validBatchItems (items : List BatchItem) : List BatchItem :=
  items.filter fun it => !(jsTrim it.text).isEmpty

/-- Export driver `downloadBatch` (lines 107-227), abstracted to the list of items it
processes: returns early (`none`) when every item is blank, otherwise every
export mode runs over exactly `validBatchItems`. -/
def downloadBatch (items : List BatchItem) : Option (List BatchItem) :=
  if items.all fun it => (jsTrim it.text).isEmpty then none
  else some (validBatchItems items)

/-! ## Delimited-text import (`handleCSVUpload`, lines 59-85) -/

/-- JavaScript `String.prototype.split` with a one-character separator. -/
def splitOnSep (sep : Char) (s : Str) : List Str :=
  s.foldr (fun c acc => if c = sep then [] :: acc else (c :: acc.headD []) :: acc.tail) [[]]

/-- ASCII lower-casing of one character (`String.prototype.toLowerCase`). -/
def jsToLowerChar (c : Char) : Char :=
  if 'A' ≤ c ∧ c ≤ 'Z' then Char.ofNat (c.toNat + 32) else c

/-- JavaScript `String.prototype.includes`: substring containment. -/
def containsSubstr (s sub : Str) : Bool :=
  (List.range (s.length + 1)).any fun i => sub.isPrefixOf (s.drop i)

/-- Lines `csv.split('\n').filter(line => line.trim())`: the non-blank lines. -/
def csvLines (csv : Str) : List Str :=
  (splitOnSep '\n' csv).filter fun l => !(jsTrim l).isEmpty

/-- The header test applied to the first line:
`lines[0].toLowerCase().includes('text') || lines[0].toLowerCase().includes('url')`. -/
def csvHeaderDetected (l0 : Str) : Bool :=
  containsSubstr (l0.map jsToLowerChar) "text".toList ||
    containsSubstr (l0.map jsToLowerChar) "url".toList

/-- One delimited field: `s.trim().replace(/"/g, '')`. -/
def csvField (s : Str) : Str := (jsTrim s).filter fun c => !(c = '"' : Bool)

/-- One data line mapped to a `BatchItem` (lines 73-79); `now` is
`Date.now()` and `idx` the 0-based index among the data lines. -/
def parseCSVLine (now idx : Nat) (line : Str) : BatchItem :=
  let parts := (splitOnSep ',' line).map csvField
  let text := parts.headD []
  let fname := parts.getD 1 []
  { id := idOf (now + idx)
    text := text
    filename := if fname.isEmpty then "qr-code-".toList ++ idOf (idx + 1) else fname }

/-- The items built from the data lines, dropping those whose payload is
empty (`.filter(item => item.text)`). -/
def parseCSVItems (now : Nat) (dataLines : List Str) : List BatchItem :=
  (dataLines.enum.map fun pr => parseCSVLine now pr.1 pr.2).filter fun it => !it.text.isEmpty

/-- The whole import: `none` models the handler dying on an empty file
(`lines[0]` is `undefined`), in which case the collection is not replaced. -/
def parseCSV (now : Nat) (csv : Str) : Option (List BatchItem) :=
  match csvLines csv with
  | [] => none
  | l0 :: rest =>
    some (parseCSVItems now (if csvHeaderDetected l0 then rest else l0 :: rest))

/-- Import handler `handleCSVUpload` as a state transition on the batch collection:
`setBatchItems(newItems)` replaces the whole collection. -/
def handleCSVUpload (prev : List BatchItem) (now : Nat) (csv : Str) : List BatchItem :=
  match parseCSV now csv with
  | some items => items
  | none => prev

/-! ## Decimal representation: `Nat.repr` is injective

Needed because batch item ids are the decimal strings of timestamps. -/

/-- Numeric value of a decimal digit character. -/
def digitVal (c : Char) : Nat := c.toNat - 48

/-- Value of a decimal digit string continued from accumulator `a`. -/
def decimalVal (a : Nat) (ds : List Char) : Nat :=
  ds.foldl (fun acc c => 10 * acc + digitVal c) a

lemma digitChar_toNat : ∀ k, k < 10 → (Nat.digitChar k).toNat = k + 48 := by decide

lemma decimalVal_cons (a : Nat) (c : Char) (ds : List Char) :
    decimalVal a (c :: ds) = decimalVal (10 * a + digitVal c) ds := rfl

lemma toDigitsCore_decimalVal :
    ∀ (f n : Nat) (ds : List Char), n < f →
      decimalVal 0 (Nat.toDigitsCore 10 f n ds) = decimalVal n ds := by
  intro f
  induction f with
  | zero => exact fun n ds h => absurd h (Nat.not_lt_zero n)
  | succ f ih =>
    intro n ds h
    simp only [Nat.toDigitsCore]
    by_cases h0 : n / 10 = 0
    · rw [if_pos h0, decimalVal_cons]
      have hd : digitVal (Nat.digitChar (n % 10)) = n % 10 := by
        unfold digitVal
        rw [digitChar_toNat (n % 10) (by omega)]
        omega
      rw [hd]
      have hn : 10 * 0 + n % 10 = n := by omega
      rw [hn]
    · rw [if_neg h0]
      have hf : n / 10 < f := by omega
      rw [ih (n / 10) (Nat.digitChar (n % 10) :: ds) hf, decimalVal_cons]
      have hd : digitVal (Nat.digitChar (n % 10)) = n % 10 := by
        unfold digitVal
        rw [digitChar_toNat (n % 10) (by omega)]
        omega
      rw [hd]
      have hn : 10 * (n / 10) + n % 10 = n := by omega
      rw [hn]

lemma repr_decimalVal (n : Nat) : decimalVal 0 ((Nat.repr n).toList) = n := by
  have h : (Nat.repr n).toList = Nat.toDigitsCore 10 (n + 1) n [] := rfl
  rw [h, toDigitsCore_decimalVal (n + 1) n [] (Nat.lt_succ_self n)]
  rfl

lemma idOf_injective : Function.Injective idOf := by
  intro m n hmn
  have hm := repr_decimalVal m
  have hn := repr_decimalVal n
  unfold idOf at hmn
  rw [← hm, ← hn, hmn]

/-! ## C6: blank payloads are silently skipped -/

lemma jsTrim_eq_nil (s : Str) (h : ∀ c ∈ s, isJSWs c = true) : jsTrim s = [] := by
  unfold jsTrim
  have h1 : s.dropWhile isJSWs = [] := List.dropWhile_eq_nil_iff.mpr h
  rw [h1]
  rfl

/-- C6: for an empty or whitespace-only payload, single-QR generation
returns without producing an artifact, such items never pass the batch
filter, and every item a batch export actually processes has a non-blank
payload. -/
theorem blank_payload_skipped (p : Str) (hws : ∀ c ∈ p, isJSWs c = true) :
    (∀ (size logoSize : ℚ) (hasLogo : Bool) (shape : LogoShape),
      generateQRCode p size logoSize hasLogo shape = none) ∧
    (∀ (items : List BatchItem) (it : BatchItem), it ∈ items → it.text = p →
      it ∉ validBatchItems items) ∧
    (∀ (items pr : List BatchItem), downloadBatch items = some pr →
      ∀ it ∈ pr, (jsTrim it.text).isEmpty = false) := by
  have ht : jsTrim p = [] := jsTrim_eq_nil p hws
  refine ⟨?_, ?_, ?_⟩
  · intro size logoSize hasLogo shape
    simp [generateQRCode, ht]
  · intro items it _ htext hval
    unfold validBatchItems at hval
    rw [List.mem_filter] at hval
    have hne := hval.2
    rw [htext, ht] at hne
    simp at hne
  · intro items pr hdl it hit
    unfold downloadBatch at hdl
    split at hdl
    · exact absurd hdl (by simp)
    · have hpr : pr = validBatchItems items := (Option.some.inj hdl).symm
      rw [hpr] at hit
      unfold validBatchItems at hit
      rw [List.mem_filter] at hit
      have := hit.2
      simpa using this

/-- C6 witness: the skipping theorem applied to the concrete whitespace-only
payload `" \t"`. -/
theorem blank_payload_skipped_witness :
    (∀ c ∈ ([' ', '\t'] : Str), isJSWs c = true) ∧
    generateQRCode [' ', '\t'] 300 20 true .rounded = none :=
  ⟨by decide, (blank_payload_skipped [' ', '\t'] (by decide)).1 300 20 true .rounded⟩

/-! ## C7, C9, C10: delimited-text import -/

/-- The import example from the spec's test catalogue. -/
def csvExample : Str := "text,filename\nhttps://a.com,site-a\ntel:+1,phone".toList

/-- A header-less import whose first line's payload contains `"url"` as a
substring. -/
def csvExample2 : Str := "https://myurl.com,my-site\ntel:+123,phone".toList

/-- C7: the example import yields exactly the two expected items with the
header line excluded, and in general the first non-blank line is skipped iff
it case-insensitively contains `"text"` or `"url"`. -/
theorem csv_import_header_and_rows :
    ((parseCSV 0 csvExample).map fun items => items.map fun it => (it.text, it.filename)) =
      some [("https://a.com".toList, "site-a".toList), ("tel:+1".toList, "phone".toList)] ∧
    (∀ (now : Nat) (csv l0 : Str) (rest : List Str), csvLines csv = l0 :: rest →
      parseCSV now csv =
        some (parseCSVItems now (if csvHeaderDetected l0 then rest else l0 :: rest))) := by
  refine ⟨by decide, ?_⟩
  intro now csv l0 rest h
  unfold parseCSV
  rw [h]

/-- C7 witness: the general header rule applied to the concrete example. -/
theorem csv_import_header_and_rows_witness :
    csvLines csvExample =
      "text,filename".toList :: ["https://a.com,site-a".toList, "tel:+1,phone".toList] ∧
    parseCSV 0 csvExample =
      some (parseCSVItems 0 (if csvHeaderDetected "text,filename".toList
        then ["https://a.com,site-a".toList, "tel:+1,phone".toList]
        else "text,filename".toList ::
          ["https://a.com,site-a".toList, "tel:+1,phone".toList])) :=
  ⟨by decide, csv_import_header_and_rows.2 0 csvExample _ _ (by decide)⟩

/-- C9: a successful import replaces the whole collection: the new state is
exactly the parsed items and does not depend on the previous items. -/
theorem csv_import_replaces_collection (prev prev' : List BatchItem) (now : Nat)
    (csv : Str) (items : List BatchItem) (h : parseCSV now csv = some items) :
    handleCSVUpload prev now csv = items ∧
    handleCSVUpload prev' now csv = handleCSVUpload prev now csv := by
  unfold handleCSVUpload
  rw [h]
  exact ⟨rfl, rfl⟩

/-- C9 witness: importing the example file over the initial collection and
over the empty collection gives the same, fully replaced, state. -/
theorem csv_import_replaces_collection_witness :
    handleCSVUpload initialBatchItems 0 csvExample =
      [ { id := "0".toList, text := "https://a.com".toList, filename := "site-a".toList }
      , { id := "1".toList, text := "tel:+1".toList, filename := "phone".toList } ] ∧
    handleCSVUpload [] 0 csvExample = handleCSVUpload initialBatchItems 0 csvExample :=
  csv_import_replaces_collection initialBatchItems [] 0 csvExample _ (by decide)

/-- C10: header detection is by substring containment: a header-less import
whose first line merely contains `"url"` inside its payload loses that line —
it is detected as a header, its (valid, non-empty) payload never reaches the
imported collection, and only the second line's item survives. -/
theorem header_substring_loses_first_line :
    csvHeaderDetected "https://myurl.com,my-site".toList = true ∧
    (parseCSVLine 0 0 "https://myurl.com,my-site".toList).text = "https://myurl.com".toList ∧
    ((parseCSV 0 csvExample2).map fun items => items.map fun it => (it.text, it.filename)) =
      some [("tel:+123".toList, "phone".toList)] :=
  ⟨by decide, by decide, by decide⟩

/-! ## C8: batch id uniqueness -/

lemma parseCSVItems_ids_nodup (now : Nat) (dl : List Str) :
    (batchIds (parseCSVItems now dl)).Nodup := by
  unfold parseCSVItems batchIds
  have hsub : List.Sublist
      (((dl.enum.map fun pr => parseCSVLine now pr.1 pr.2).filter
        (fun it => !it.text.isEmpty)).map (·.id))
      ((dl.enum.map fun pr => parseCSVLine now pr.1 pr.2).map (·.id)) :=
    List.Sublist.map _ (List.filter_sublist _)
  apply List.Nodup.sublist hsub
  rw [List.map_map]
  have hfun : ((fun it : BatchItem => it.id) ∘ fun pr : Nat × Str =>
      parseCSVLine now pr.1 pr.2) = fun pr : Nat × Str => idOf (now + pr.1) := rfl
  rw [hfun]
  have h2 : (dl.enum.map fun pr : Nat × Str => idOf (now + pr.1)) =
      (dl.enum.map Prod.fst).map fun i => idOf (now + i) := by
    rw [List.map_map]
    rfl
  rw [h2, List.enum_map_fst]
  refine List.Nodup.map ?_ (List.nodup_range dl.length)
  intro a b hab
  have := idOf_injective hab
  omega

/-- C8 counterexample: adding an item twice within the same millisecond
(`Date.now()` returning the same value for both clicks) duplicates an id:
from the nodup state reached by the first add, the second add violates the
uniqueness invariant. -/
theorem add_in_same_millisecond_duplicates_id :
    (batchIds (addBatchItem 1700000000000 initialBatchItems)).Nodup ∧
    ¬ (batchIds (addBatchItem 1700000000000
        (addBatchItem 1700000000000 initialBatchItems))).Nodup := by
  exact ⟨by decide, by decide⟩

/-- C8 (amended): updating a non-id field, removing an item, and importing
from delimited text all preserve (or establish) pairwise-distinct ids, and
`addBatchItem` preserves them exactly when the timestamp id it generates is
not already present — which two additions in the same millisecond violate. -/
theorem batch_id_uniqueness_amended :
    (∀ (items : List BatchItem) (tid v : Str) (f : BatchField), f ≠ BatchField.id →
      (batchIds items).Nodup → (batchIds (updateBatchItem items tid f v)).Nodup) ∧
    (∀ (items : List BatchItem) (tid : Str),
      (batchIds items).Nodup → (batchIds (removeBatchItem items tid)).Nodup) ∧
    (∀ (now : Nat) (csv : Str) (items : List BatchItem),
      parseCSV now csv = some items → (batchIds items).Nodup) ∧
    (∀ (now : Nat) (items : List BatchItem), (batchIds items).Nodup →
      idOf now ∉ batchIds items → (batchIds (addBatchItem now items)).Nodup) := by
  refine ⟨?_, ?_, ?_, ?_⟩
  · intro items tid v f hf hnd
    have hids : batchIds (updateBatchItem items tid f v) = batchIds items := by
      unfold batchIds updateBatchItem
      rw [List.map_map]
      apply List.map_congr_left
      intro it _
      simp only [Function.comp]
      by_cases h : it.id = tid
      · rw [if_pos h]
        cases f with
        | id => exact absurd rfl hf
        | text => rfl
        | filename => rfl
      · rw [if_neg h]
    rw [hids]
    exact hnd
  · intro items tid hnd
    unfold batchIds removeBatchItem
    exact List.Nodup.sublist
      (List.Sublist.map _ (List.filter_sublist items)) hnd
  · intro now csv items h
    unfold parseCSV at h
    cases hcl : csvLines csv with
    | nil =>
      rw [hcl] at h
      exact absurd h (by simp)
    | cons l0 rest =>
      rw [hcl] at h
      have hi : items =
          parseCSVItems now (if csvHeaderDetected l0 then rest else l0 :: rest) :=
        (Option.some.inj h).symm
      rw [hi]
      exact parseCSVItems_ids_nodup now _
  · intro now items hnd hmem
    unfold batchIds addBatchItem
    rw [List.map_append, List.nodup_append]
    refine ⟨hnd, List.nodup_singleton _, ?_⟩
    intro a ha hb
    have hb2 : a = idOf now := by simpa using hb
    rw [hb2] at ha
    exact hmem ha

/-- C8 witness: the amended theorem applied to the initial collection for
each operation, with every hypothesis discharged concretely. -/
theorem batch_id_uniqueness_amended_witness :
    (BatchField.text ≠ BatchField.id ∧ (batchIds initialBatchItems).Nodup ∧
      idOf 99 ∉ batchIds initialBatchItems) ∧
    (batchIds (updateBatchItem initialBatchItems "1".toList BatchField.text
      "x".toList)).Nodup ∧
    (batchIds (removeBatchItem initialBatchItems "2".toList)).Nodup ∧
    (batchIds (parseCSVItems 0 ["https://a.com,site-a".toList, "tel:+1,phone".toList])).Nodup ∧
    (batchIds (addBatchItem 99 initialBatchItems)).Nodup :=
  ⟨⟨by decide, by decide, by decide⟩,
    batch_id_uniqueness_amended.1 initialBatchItems "1".toList "x".toList
      BatchField.text (by decide) (by decide),
    batch_id_uniqueness_amended.2.1 initialBatchItems "2".toList (by decide),
    batch_id_uniqueness_amended.2.2.1 0 csvExample _ (by decide),
    batch_id_uniqueness_amended.2.2.2 99 initialBatchItems (by decide) (by decide)⟩
